import Mathlib

/-!
# crawlly-core: registration and authentication use cases

A shallow embedding of the membership core of `sahdoio/crawlly-core`
(`internal/membership/{domain,repositories,usecases}` and `pkg/auth`) together
with the properties its specification states about it.

Conventions of the embedding.

* A Go `string` is a Lean `String`: the text is valid UTF-8, which is what
  `encoding/json` hands to the HTTP handlers. The builtin `len` counts the
  bytes of the UTF-8 encoding, not the characters.
* A Go `error` is `Option String`: `none` is `nil`, `some msg` an error whose
  `Error()` text is `msg`. A function returning `(*T, error)` with exactly one
  of the two set on every path is an `Except String T`.
* Values that Go obtains from outside the program (the clock, the random
  generator, the database driver) are explicit arguments or explicit state.
* The use cases return an `Outcome`: the Go result, the database after the
  call, and the calls made on the repository and on package `auth`, in order.
-/

/-! ## Go builtins and the standard library functions the code calls -/

namespace Go

/-- The conversion `[]byte(s)`: the UTF-8 encoding of the text. -/
def bytes (s : String) : List UInt8 :=
  s.data.flatMap String.utf8EncodeChar

/-- The builtin `len(s)` of a string: its number of bytes. -/
def len (s : String) : Nat :=
  (bytes s).length

end Go

namespace unicode

/-- Go `unicode.IsSpace`: the Latin-1 switch, then the `White_Space` range table. -/
def IsSpace (r : Char) : Bool :=
  if r.toNat ≤ 0xFF then
    r.toNat = 0x09 || r.toNat = 0x0A || r.toNat = 0x0B || r.toNat = 0x0C ||
      r.toNat = 0x0D || r.toNat = 0x20 || r.toNat = 0x85 || r.toNat = 0xA0
  else
    r.toNat = 0x1680 || (0x2000 ≤ r.toNat && r.toNat ≤ 0x200A) ||
      (0x2028 ≤ r.toNat && r.toNat ≤ 0x2029) || r.toNat = 0x202F ||
      r.toNat = 0x205F || r.toNat = 0x3000

end unicode

namespace strings

/-- Go `strings.TrimLeftFunc` on the runes of a string. -/
def TrimLeftFunc (s : List Char) (f : Char → Bool) : List Char :=
  s.dropWhile f

/-- Go `strings.TrimRightFunc` on the runes of a string. -/
def TrimRightFunc (s : List Char) (f : Char → Bool) : List Char :=
  (s.reverse.dropWhile f).reverse

/-- Go `strings.TrimSpace`: leading and trailing white space, as defined by
Unicode, removed. (The ASCII fast path of the library agrees with this on
valid UTF-8.) -/
def TrimSpace (s : String) : String :=
  ⟨TrimRightFunc (TrimLeftFunc s.data unicode.IsSpace) unicode.IsSpace⟩

/-- Whether `substr` occurs in `s` at the head or further right. -/
def occurs (substr : List Char) : List Char → Bool
  | [] => substr.isEmpty
  | c :: cs => substr.isPrefixOf (c :: cs) || occurs substr cs

/-- Go `strings.Contains(s, substr)`. -/
def Contains (s substr : String) : Bool :=
  occurs substr.data s.data

end strings

/-! ## External packages: `time`, `github.com/google/uuid`, `golang.org/x/crypto/bcrypt` -/

namespace time

/-- Go `time.Time`, as a number of ticks of the clock; `0` is the zero time. -/
abbrev Time := Nat

end time

namespace uuid

/-- Go `uuid.UUID`: an array of 16 bytes. -/
structure UUID where
  bytes : List UInt8
  size : bytes.length = 16
deriving DecidableEq

/-- Go `uuid.Nil`, the zero value of the type. -/
def Nil : UUID := ⟨List.replicate 16 0, rfl⟩

/-- One entry of the table `0123456789abcdef` of `encoding/hex`. -/
def hextable (n : Nat) : Char :=
  "0123456789abcdef".data.getD n '0'

/-- Go `hex.Encode`: two digits a byte, high nibble first. -/
def hexEncode (src : List UInt8) : List Char :=
  src.flatMap fun v => [hextable (v.toNat / 16), hextable (v.toNat % 16)]

/-- Go `(UUID).String`: the form `xxxxxxxx-xxxx-xxxx-xxxx-xxxxxxxxxxxx`. -/
def UUID.String (u : UUID) : String :=
  ⟨hexEncode (u.bytes.take 4) ++ '-' :: hexEncode ((u.bytes.drop 4).take 2) ++
    '-' :: hexEncode ((u.bytes.drop 6).take 2) ++
    '-' :: hexEncode ((u.bytes.drop 8).take 2) ++
    '-' :: hexEncode (u.bytes.drop 10)⟩

end uuid

namespace bcrypt

/-- Go `bcrypt.ErrPasswordTooLong`. -/
def ErrPasswordTooLong : String := "bcrypt: password length exceeds 72 bytes"

/-- Go `bcrypt.ErrMismatchedHashAndPassword`. -/
def ErrMismatchedHashAndPassword : String :=
  "crypto/bcrypt: hashedPassword is not the hash of the given password"

/-- The two functions of `golang.org/x/crypto/bcrypt` that package `auth` calls.
The package is not part of the repository; its Blowfish core is left open and
only what its documentation and source guarantee is recorded, as laws:

* `GenerateFromPassword` takes the password bytes, the cost and the bytes it
  reads from `crypto/rand` for the salt; it returns the digest, which is ASCII
  text and is kept as text here, so that `string(bytes)` in `HashPassword` and
  `[]byte(hash)` in `CheckPassword` are the identity on it;
* `too_long`: a password longer than 72 bytes is refused with
  `ErrPasswordTooLong`;
* `generates`: any other password is hashed, whenever the cost is at most
  `MaxCost` (31);
* `verifies`: a digest matches the password it was generated from;
* `reads72`: the comparison reads at most the first 72 bytes of the password
  (the Blowfish key schedule has 18 words of 4 bytes), also of a password that
  `GenerateFromPassword` would refuse.

A failing read of `crypto/rand` is left out: `uuid.New()` panics on it, and the
claims are about runs that return. -/
structure Package where
  GenerateFromPassword : List UInt8 → Nat → List UInt8 → Except String String
  CompareHashAndPassword : String → List UInt8 → Option String
  too_long : ∀ password cost rand, 72 < password.length →
    GenerateFromPassword password cost rand = .error ErrPasswordTooLong
  generates : ∀ password cost rand, password.length ≤ 72 → cost ≤ 31 →
    ∃ hash, GenerateFromPassword password cost rand = .ok hash
  verifies : ∀ password cost rand hash, GenerateFromPassword password cost rand = .ok hash →
    CompareHashAndPassword hash password = none
  reads72 : ∀ hash p q, p.take 72 = q.take 72 →
    CompareHashAndPassword hash p = CompareHashAndPassword hash q

/-- The digest of the instance `plain`: a version header and the 72 bytes read. -/
def plainDigest (password : List UInt8) : String :=
  ⟨"$2a$10$".data ++ (password.take 72).map fun b => Char.ofNat b.toNat⟩

/-- An instance of `Package` without any cryptography. It shows that the laws
can be met together and lets the use cases be evaluated on concrete inputs. -/
def plain : Package where
  GenerateFromPassword password cost _ :=
    if 72 < password.length then .error ErrPasswordTooLong
    else if 31 < cost then .error "crypto/bcrypt: cost outside allowed range"
    else .ok (plainDigest password)
  CompareHashAndPassword hash password :=
    if hash = plainDigest password then none else some ErrMismatchedHashAndPassword
  too_long := by
    intro password cost rand h
    simp [h]
  generates := by
    intro password cost rand h hc
    exact ⟨plainDigest password, by simp [Nat.not_lt.2 h, Nat.not_lt.2 hc]⟩
  verifies := by
    intro password cost rand hash h
    by_cases h1 : 72 < password.length
    · simp [h1] at h
    · by_cases h2 : 31 < cost
      · simp [h1, h2] at h
      · simp only [h1, h2, if_false, Except.ok.injEq] at h
        simp [h]
  reads72 := by
    intro hash p q h
    simp [plainDigest, h]

end bcrypt

/-! ## `pkg/auth` -/

namespace auth

/-- Go `auth.HashPassword`; `rand` is what `crypto/rand` gives during the call. -/
def HashPassword (bc : bcrypt.Package) (rand : List UInt8) (password : String) :
    Except String String :=
  match bc.GenerateFromPassword (Go.bytes password) 10 rand with
  | .error err => .error err
  | .ok bytes => .ok bytes

/-- Go `auth.CheckPassword`. -/
def CheckPassword (bc : bcrypt.Package) (password hash : String) : Bool :=
  (bc.CompareHashAndPassword hash (Go.bytes password)).isNone

end auth

/-! ## `internal/membership/domain` -/

namespace domain

/-- Go struct `domain.User`. -/
structure User where
  ID : uuid.UUID
  Email : String
  Name : String
  PasswordHash : String
  APIKey : String
  IsActive : Bool
  CreatedAt : time.Time
  UpdatedAt : time.Time
deriving DecidableEq

/-- The zero value `domain.User{}`. -/
def User.zero : User :=
  ⟨uuid.Nil, "", "", "", "", false, 0, 0⟩

/-- Go `generateAPIKey`; `key` is the value `uuid.New()` returns. -/
def generateAPIKey (key : uuid.UUID) : String :=
  "crawlly_" ++ key.String

/-- Go `domain.NewUser`; `now` is the value of `time.Now()`, `id` and `key` the
values of the two calls of `uuid.New()`, in the order of the struct literal. -/
def NewUser (now : time.Time) (id key : uuid.UUID) (email name passwordHash : String) : User :=
  { ID := id
    Email := email
    Name := name
    PasswordHash := passwordHash
    APIKey := generateAPIKey key
    IsActive := true
    CreatedAt := now
    UpdatedAt := now }

/-- Go `(*User).UpdateEmail`; `now` is the value of `time.Now()`. -/
def User.UpdateEmail (u : User) (now : time.Time) (email : String) : User :=
  { u with Email := email, UpdatedAt := now }

/-- Go `(*User).UpdateName`. -/
def User.UpdateName (u : User) (now : time.Time) (name : String) : User :=
  { u with Name := name, UpdatedAt := now }

/-- Go `(*User).Deactivate`. -/
def User.Deactivate (u : User) (now : time.Time) : User :=
  { u with IsActive := false, UpdatedAt := now }

/-- Go `(*User).Activate`. -/
def User.Activate (u : User) (now : time.Time) : User :=
  { u with IsActive := true, UpdatedAt := now }

/-- Go `(*User).RegenerateAPIKey`; `key` is the value `uuid.New()` returns. -/
def User.RegenerateAPIKey (u : User) (now : time.Time) (key : uuid.UUID) : User :=
  { u with APIKey := generateAPIKey key, UpdatedAt := now }

/-- One call of a mutator of `User`, with the values it draws from the clock
and from the random generator. -/
inductive Mutation where
  | UpdateEmail (now : time.Time) (email : String)
  | UpdateName (now : time.Time) (name : String)
  | Deactivate (now : time.Time)
  | Activate (now : time.Time)
  | RegenerateAPIKey (now : time.Time) (key : uuid.UUID)
deriving DecidableEq

/-- The user after one mutator call. -/
def Mutation.apply (u : User) : Mutation → User
  | .UpdateEmail now email => u.UpdateEmail now email
  | .UpdateName now name => u.UpdateName now name
  | .Deactivate now => u.Deactivate now
  | .Activate now => u.Activate now
  | .RegenerateAPIKey now key => u.RegenerateAPIKey now key

/-- The user after a sequence of mutator calls, first call first. -/
def User.after (u : User) (ms : List Mutation) : User :=
  ms.foldl Mutation.apply u

end domain

/-! ## `database/sql` over the table `users` -/

namespace sql

/-- The database behind `*sql.DB`: the rows of table `users`, in the order a
scan returns them, and the error the driver reports for a statement (`none`
when the database answers). -/
structure DB where
  users : List domain.User
  fault : Option String
deriving DecidableEq

/-- Modelled from the spec: the constraints of table `users`, whose schema is
not among the sources. Section 2 has the store enforce no uniqueness itself, so
the table takes every row. -/
def admits (_rows : List domain.User) (_u : domain.User) : Bool :=
  true

/-- What `QueryRowContext(...).Scan(...)` yields: the first row of the result,
`sql.ErrNoRows`, or an error of the driver (the destination is then untouched). -/
inductive Scan where
  | row (u : domain.User)
  | ErrNoRows
  | failed (err : String)
deriving DecidableEq

/-- A `SELECT ... FROM users WHERE p` through `QueryRowContext` and `Scan`. -/
def DB.QueryRow (db : DB) (p : domain.User → Bool) : Scan :=
  match db.fault with
  | some err => .failed err
  | none =>
    match db.users.find? p with
    | some u => .row u
    | none => .ErrNoRows

/-- The `INSERT INTO users` of one row through `ExecContext`. -/
def DB.Insert (db : DB) (u : domain.User) : Option String × DB :=
  match db.fault with
  | some err => (some err, db)
  | none =>
    if admits db.users u then (none, { db with users := db.users ++ [u] })
    else (some "pq: new row violates a constraint of table users", db)

end sql

/-! ## `internal/membership/repositories` -/

namespace repositories

/-- Go `(*PostgresUserRepository).Create`: the error and the database after. -/
def PostgresUserRepository.Create (r : sql.DB) (user : domain.User) : Option String × sql.DB :=
  r.Insert user

/-- Go `(*PostgresUserRepository).FindByEmail`: the pair `(*User, error)` and
the database after. On a driver error the pointer to the empty `User` that was
allocated for the scan is returned together with the error. -/
def PostgresUserRepository.FindByEmail (r : sql.DB) (email : String) :
    (Option domain.User × Option String) × sql.DB :=
  match r.QueryRow (fun u => u.Email = email) with
  | .ErrNoRows => ((none, some "user not found"), r)
  | .failed err => ((some domain.User.zero, some err), r)
  | .row u => ((some u, none), r)

end repositories

/-! ## `internal/membership/usecases` -/

namespace usecases

/-- A call that a use case makes on `domain.UserRepository` or on package `auth`. -/
inductive Call where
  | Create (user : domain.User)
  | FindByID (id : uuid.UUID)
  | FindByEmail (email : String)
  | FindByAPIKey (apiKey : String)
  | Update (user : domain.User)
  | Delete (id : uuid.UUID)
  | ListUsers (offset limit : Int)
  | HashPassword (password : String)
  | CheckPassword (password hash : String)
deriving DecidableEq

/-- A call that writes to the store. -/
def Call.writes : Call → Bool
  | .Create _ => true
  | .Update _ => true
  | .Delete _ => true
  | _ => false

/-- What one `Execute` leaves behind: the Go result, the database afterwards
and the calls made, in order. -/
structure Outcome (α : Type) where
  result : Except String α
  db : sql.DB
  calls : List Call

/-- The values one registration draws from outside the program: the bytes of
`crypto/rand` for the salt, the clock, and the two results of `uuid.New()`. -/
structure Env where
  rand : List UInt8
  now : time.Time
  id : uuid.UUID
  key : uuid.UUID
deriving DecidableEq

/-- Go struct `RegisterUserInput`. -/
structure RegisterUserInput where
  Email : String
  Name : String
  Password : String
deriving DecidableEq

/-- Go struct `RegisterUserOutput`. -/
structure RegisterUserOutput where
  UserID : String
  Email : String
  Name : String
  APIKey : String
deriving DecidableEq

/-- Go `(*RegisterUserUseCase).validateInput`; the receiver is not used. -/
def RegisterUserUseCase.validateInput (input : RegisterUserInput) : Option String :=
  if strings.TrimSpace input.Email = "" then
    some "email is required"
  else if strings.TrimSpace input.Name = "" then
    some "name is required"
  else if Go.len input.Password < 6 then
    some "password must be at least 6 characters"
  else if !strings.Contains input.Email "@" then
    some "invalid email format"
  else
    none

/-- Go `(*RegisterUserUseCase).Execute` with the repository of `main.go`. -/
def RegisterUserUseCase.Execute (bc : bcrypt.Package) (env : Env) (db : sql.DB)
    (input : RegisterUserInput) : Outcome RegisterUserOutput :=
  match RegisterUserUseCase.validateInput input with
  | some err => ⟨.error err, db, []⟩
  | none =>
    match repositories.PostgresUserRepository.FindByEmail db input.Email with
    | ((some _, _), db1) =>
      ⟨.error "user with this email already exists", db1, [.FindByEmail input.Email]⟩
    | ((none, _), db1) =>
      match auth.HashPassword bc env.rand input.Password with
      | .error _ =>
        ⟨.error "failed to hash password", db1,
          [.FindByEmail input.Email, .HashPassword input.Password]⟩
      | .ok passwordHash =>
        let user := domain.NewUser env.now env.id env.key input.Email input.Name passwordHash
        match repositories.PostgresUserRepository.Create db1 user with
        | (some _, db2) =>
          ⟨.error "failed to create user", db2,
            [.FindByEmail input.Email, .HashPassword input.Password, .Create user]⟩
        | (none, db2) =>
          ⟨.ok ⟨user.ID.String, user.Email, user.Name, user.APIKey⟩, db2,
            [.FindByEmail input.Email, .HashPassword input.Password, .Create user]⟩

/-- Go struct `AuthenticateUserInput`. -/
structure AuthenticateUserInput where
  Email : String
  Password : String
deriving DecidableEq

/-- Go struct `AuthenticateUserOutput`. -/
structure AuthenticateUserOutput where
  UserID : String
  Email : String
  Name : String
  APIKey : String
  IsActive : Bool
deriving DecidableEq

/-- Go `(*AuthenticateUserUseCase).Execute` with the repository of `main.go`.
A nil user with a nil error, which this repository never returns, makes the Go
code dereference nil; that run ends in the runtime error. -/
def AuthenticateUserUseCase.Execute (bc : bcrypt.Package) (db : sql.DB)
    (input : AuthenticateUserInput) : Outcome AuthenticateUserOutput :=
  match repositories.PostgresUserRepository.FindByEmail db input.Email with
  | ((_, some _), db1) =>
    ⟨.error "invalid email or password", db1, [.FindByEmail input.Email]⟩
  | ((none, none), db1) =>
    ⟨.error "runtime error: invalid memory address or nil pointer dereference", db1,
      [.FindByEmail input.Email]⟩
  | ((some user, none), db1) =>
    if !user.IsActive then
      ⟨.error "account is deactivated", db1, [.FindByEmail input.Email]⟩
    else if !auth.CheckPassword bc input.Password user.PasswordHash then
      ⟨.error "invalid email or password", db1,
        [.FindByEmail input.Email, .CheckPassword input.Password user.PasswordHash]⟩
    else
      ⟨.ok ⟨user.ID.String, user.Email, user.Name, user.APIKey, user.IsActive⟩, db1,
        [.FindByEmail input.Email, .CheckPassword input.Password user.PasswordHash]⟩

end usecases

deriving instance DecidableEq for Except

deriving instance DecidableEq for usecases.Outcome

/-! ## Words of the specification -/

namespace Spec

/-- A blank text: empty or only white space. -/
def Blank (s : String) : Prop :=
  ∀ c ∈ s.data, unicode.IsSpace c = true

instance (s : String) : Decidable (Blank s) := by
  unfold Blank; infer_instance

/-- The number of characters of a text. -/
def characters (s : String) : Nat :=
  s.length

/-- A text contains the character `@`. -/
def HasAt (s : String) : Prop :=
  '@' ∈ s.data

instance (s : String) : Decidable (HasAt s) := by
  unfold HasAt; infer_instance

/-- A valid registration input: email not blank and with an `@`, name not
blank, password of length at least 6. The length is the one the code measures,
`len`; a password of six characters or more has it (`Go.characters_le_len`). -/
def Valid (input : usecases.RegisterUserInput) : Prop :=
  ¬ Blank input.Email ∧ HasAt input.Email ∧ ¬ Blank input.Name ∧ 6 ≤ Go.len input.Password

instance (input : usecases.RegisterUserInput) : Decidable (Valid input) := by
  unfold Valid; infer_instance

/-- The store holds a user with this email. -/
def Holds (db : sql.DB) (email : String) : Prop :=
  ∃ u ∈ db.users, u.Email = email

instance (db : sql.DB) (email : String) : Decidable (Holds db email) := by
  unfold Holds; infer_instance

/-- The number of stored users with this email. -/
def emailCount (db : sql.DB) (email : String) : Nat :=
  db.users.countP fun u => u.Email = email

end Spec

/-! ## Concrete values for the examples -/

namespace Sample

/-- A version 4 identifier. -/
def id1 : uuid.UUID :=
  ⟨[0x11, 0x11, 0x11, 0x11, 0x11, 0x11, 0x41, 0x11, 0x81, 0x11, 0x11, 0x11, 0x11, 0x11, 0x11, 0x11],
    rfl⟩

/-- Another version 4 identifier. -/
def id2 : uuid.UUID :=
  ⟨[0x22, 0x22, 0x22, 0x22, 0x22, 0x22, 0x42, 0x22, 0x82, 0x22, 0x22, 0x22, 0x22, 0x22, 0x22, 0x22],
    rfl⟩

/-- The outside values of one registration. -/
def env : usecases.Env :=
  ⟨[], 1000, id1, id2⟩

/-- An empty database that answers. -/
def emptyDB : sql.DB :=
  ⟨[], none⟩

/-- The registration of the scenario of the specification. -/
def alice : usecases.RegisterUserInput :=
  ⟨"a@x.com", "A", "secret1"⟩

/-- A password of 72 bytes. -/
def password72 : String :=
  ⟨List.replicate 72 'a'⟩

/-- A password of 73 bytes, `password72` with one more letter. -/
def password73 : String :=
  ⟨List.replicate 73 'a'⟩

/-- A password of three characters and six bytes. -/
def threeLetters : String :=
  "\u00e9\u00e9\u00e9"

/-- A stored user, deactivated. -/
def dormant : domain.User :=
  (domain.NewUser 500 id1 id2 "a@x.com" "A" (bcrypt.plainDigest (Go.bytes "secret1"))).Deactivate 600

/-- A database that answers and holds the deactivated user. -/
def dormantDB : sql.DB :=
  ⟨[dormant], none⟩

/-- A database that answers and holds the user of `alice`, active. -/
def aliceDB : sql.DB :=
  ⟨[domain.NewUser 500 id1 id2 "a@x.com" "A" (bcrypt.plainDigest (Go.bytes "secret1"))], none⟩

/-- A database without rows whose connection is down: the driver fails every
statement with the same error. -/
def downDB : sql.DB :=
  ⟨[], some "dial tcp 127.0.0.1:5432: connect: connection refused"⟩

/-- A database that holds the deactivated user while its connection is down. -/
def dormantDownDB : sql.DB :=
  ⟨[dormant], some "dial tcp 127.0.0.1:5432: connect: connection refused"⟩

/-- A second user with the email of `alice`, deactivated. -/
def twin : domain.User :=
  (domain.NewUser 700 id2 id1 "a@x.com" "A2" (bcrypt.plainDigest (Go.bytes "secret2"))).Deactivate 800

/-- A database that answers and holds two users under one email, as two racing
registrations leave them: the active one first, then the deactivated one. -/
def twinsDB : sql.DB :=
  ⟨aliceDB.users ++ [twin], none⟩

end Sample

/-! ## Lemmas on the string functions -/

theorem Go.len_eq_utf8ByteSize (s : String) : Go.len s = s.utf8ByteSize := by
  obtain ⟨l⟩ := s
  simp only [Go.len, Go.bytes, String.utf8ByteSize]
  induction l with
  | nil => rfl
  | cons c cs ih =>
    simp only [List.flatMap_cons, List.length_append, String.length_utf8EncodeChar,
      String.utf8ByteSize.go, ih]
    omega

theorem Go.characters_le_len (s : String) : Spec.characters s ≤ Go.len s := by
  obtain ⟨l⟩ := s
  simp only [Go.len, Go.bytes, Spec.characters, String.length]
  induction l with
  | nil => simp
  | cons c cs ih =>
    simp only [List.flatMap_cons, List.length_append, String.length_utf8EncodeChar,
      List.length_cons]
    have := Char.utf8Size_pos c
    omega

theorem List.all_of_all_dropWhile {α : Type} (p : α → Bool) (l : List α)
    (h : ∀ x ∈ l.dropWhile p, p x = true) : ∀ x ∈ l, p x = true := by
  induction l with
  | nil => intro x hx; cases hx
  | cons a as ih =>
    by_cases ha : p a = true
    · rw [List.dropWhile_cons, if_pos ha] at h
      intro x hx
      rcases List.mem_cons.1 hx with rfl | hx
      · exact ha
      · exact ih h x hx
    · rw [List.dropWhile_cons, if_neg ha] at h
      exact h

theorem strings.TrimRightFunc_TrimLeftFunc_eq_nil_iff (p : Char → Bool) (l : List Char) :
    strings.TrimRightFunc (strings.TrimLeftFunc l p) p = [] ↔ ∀ x ∈ l, p x = true := by
  simp only [strings.TrimRightFunc, strings.TrimLeftFunc, List.reverse_eq_nil_iff,
    List.dropWhile_eq_nil_iff, List.mem_reverse]
  constructor
  · exact List.all_of_all_dropWhile p l
  · intro h x hx
    exact h x ((List.dropWhile_suffix p).subset hx)

theorem strings.TrimSpace_eq_empty_iff (s : String) :
    strings.TrimSpace s = "" ↔ Spec.Blank s := by
  have hempty : ("" : String) = ⟨[]⟩ := rfl
  rw [hempty, strings.TrimSpace, Spec.Blank,
    ← strings.TrimRightFunc_TrimLeftFunc_eq_nil_iff unicode.IsSpace s.data]
  constructor
  · intro h
    exact congrArg String.data h
  · intro h
    rw [h]

theorem strings.occurs_singleton_iff (c : Char) (l : List Char) :
    strings.occurs [c] l = true ↔ c ∈ l := by
  induction l with
  | nil => simp [strings.occurs]
  | cons a as ih =>
    simp only [strings.occurs, Bool.or_eq_true, ih, List.mem_cons]
    constructor
    · rintro (h | h)
      · left
        simp [List.isPrefixOf] at h
        exact h
      · right; exact h
    · rintro (h | h)
      · left
        subst h
        simp [List.isPrefixOf]
      · right; exact h

theorem strings.Contains_at_iff (s : String) :
    strings.Contains s "@" = true ↔ Spec.HasAt s := by
  have h : ("@" : String).data = ['@'] := rfl
  rw [strings.Contains, h, strings.occurs_singleton_iff, Spec.HasAt]

/-- The registration input passes validation exactly when the email is not blank
and contains an at sign, the name is not blank and the password has at least six
bytes. -/
theorem usecases.validateInput_eq_none_iff (input : usecases.RegisterUserInput) :
    usecases.RegisterUserUseCase.validateInput input = none ↔
      ¬ Spec.Blank input.Email ∧ Spec.HasAt input.Email ∧ ¬ Spec.Blank input.Name ∧
        6 ≤ Go.len input.Password := by
  unfold usecases.RegisterUserUseCase.validateInput
  rw [← strings.TrimSpace_eq_empty_iff, ← strings.TrimSpace_eq_empty_iff,
    ← strings.Contains_at_iff]
  by_cases h1 : strings.TrimSpace input.Email = ""
  · simp [h1]
  · by_cases h2 : strings.TrimSpace input.Name = ""
    · simp [h1, h2]
    · by_cases h3 : Go.len input.Password < 6
      · simp [h1, h2, h3]
      · by_cases h4 : strings.Contains input.Email "@" = true
        · simp [h1, h2, h3, h4]; omega
        · simp [h1, h2, h3, h4]

/-! ## Lemmas on the repository -/

theorem repositories.FindByEmail_db (r : sql.DB) (email : String) :
    (repositories.PostgresUserRepository.FindByEmail r email).2 = r := by
  unfold repositories.PostgresUserRepository.FindByEmail
  split <;> rfl

theorem repositories.FindByEmail_fault (r : sql.DB) (email err : String)
    (h : r.fault = some err) :
    repositories.PostgresUserRepository.FindByEmail r email =
      ((some domain.User.zero, some err), r) := by
  simp [repositories.PostgresUserRepository.FindByEmail, sql.DB.QueryRow, h]

theorem repositories.FindByEmail_found (r : sql.DB) (email : String) (u : domain.User)
    (h : r.fault = none) (hu : r.users.find? (fun v => v.Email = email) = some u) :
    repositories.PostgresUserRepository.FindByEmail r email = ((some u, none), r) := by
  simp [repositories.PostgresUserRepository.FindByEmail, sql.DB.QueryRow, h, hu]

theorem repositories.FindByEmail_absent (r : sql.DB) (email : String)
    (h : r.fault = none) (hu : ∀ u ∈ r.users, u.Email ≠ email) :
    repositories.PostgresUserRepository.FindByEmail r email =
      ((none, some "user not found"), r) := by
  have hf : r.users.find? (fun v => v.Email = email) = none := by
    rw [List.find?_eq_none]
    intro u hu2
    simpa using hu u hu2
  simp [repositories.PostgresUserRepository.FindByEmail, sql.DB.QueryRow, h, hf]

/-- A lookup yields a user whenever the store holds one with the email, also
when the driver fails. -/
theorem repositories.FindByEmail_isSome (r : sql.DB) (email : String)
    (h : Spec.Holds r email) :
    ∃ u e, repositories.PostgresUserRepository.FindByEmail r email = ((some u, e), r) := by
  cases hf : r.fault with
  | some err => exact ⟨_, _, repositories.FindByEmail_fault r email err hf⟩
  | none =>
    cases hfind : r.users.find? (fun v => v.Email = email) with
    | some u => exact ⟨u, none, repositories.FindByEmail_found r email u hf hfind⟩
    | none =>
      exfalso
      obtain ⟨u, hu, hemail⟩ := h
      rw [List.find?_eq_none] at hfind
      exact hfind u hu (by simpa using hemail)

/-! ## Lemmas on the registration use case -/

theorem usecases.Register_invalid (bc : bcrypt.Package) (env : usecases.Env) (db : sql.DB)
    (input : usecases.RegisterUserInput) (err : String)
    (h : usecases.RegisterUserUseCase.validateInput input = some err) :
    usecases.RegisterUserUseCase.Execute bc env db input = ⟨.error err, db, []⟩ := by
  simp [usecases.RegisterUserUseCase.Execute, h]

theorem usecases.Register_duplicate (bc : bcrypt.Package) (env : usecases.Env) (db : sql.DB)
    (input : usecases.RegisterUserInput)
    (hvalid : usecases.RegisterUserUseCase.validateInput input = none)
    (h : Spec.Holds db input.Email) :
    usecases.RegisterUserUseCase.Execute bc env db input =
      ⟨.error "user with this email already exists", db, [.FindByEmail input.Email]⟩ := by
  obtain ⟨u, e, hfind⟩ := repositories.FindByEmail_isSome db input.Email h
  simp [usecases.RegisterUserUseCase.Execute, hvalid, hfind]

theorem usecases.Register_fresh (bc : bcrypt.Package) (env : usecases.Env) (db : sql.DB)
    (input : usecases.RegisterUserInput) (hash : String)
    (hvalid : usecases.RegisterUserUseCase.validateInput input = none)
    (hserving : db.fault = none) (hfresh : ∀ u ∈ db.users, u.Email ≠ input.Email)
    (hhash : auth.HashPassword bc env.rand input.Password = .ok hash) :
    usecases.RegisterUserUseCase.Execute bc env db input =
      ⟨.ok ⟨env.id.String, input.Email, input.Name, domain.generateAPIKey env.key⟩,
        ⟨db.users ++
          [domain.NewUser env.now env.id env.key input.Email input.Name hash], none⟩,
        [.FindByEmail input.Email, .HashPassword input.Password,
          .Create (domain.NewUser env.now env.id env.key input.Email input.Name hash)]⟩ := by
  have hfind := repositories.FindByEmail_absent db input.Email hserving hfresh
  simp [usecases.RegisterUserUseCase.Execute, hvalid, hfind, hhash,
    repositories.PostgresUserRepository.Create, sql.DB.Insert, sql.admits, hserving,
    domain.NewUser]

/-- A registration that succeeds passed validation, ran on a store that answers
and held no user with the email, and its password was hashed. -/
theorem usecases.Register_ok_inv (bc : bcrypt.Package) (env : usecases.Env) (db : sql.DB)
    (input : usecases.RegisterUserInput) (out : usecases.RegisterUserOutput)
    (h : (usecases.RegisterUserUseCase.Execute bc env db input).result = .ok out) :
    usecases.RegisterUserUseCase.validateInput input = none ∧ db.fault = none ∧
      (∀ u ∈ db.users, u.Email ≠ input.Email) ∧
      ∃ hash, auth.HashPassword bc env.rand input.Password = .ok hash := by
  cases hvalid : usecases.RegisterUserUseCase.validateInput input with
  | some err =>
    rw [usecases.Register_invalid bc env db input err hvalid] at h
    cases h
  | none =>
    by_cases hholds : Spec.Holds db input.Email
    · rw [usecases.Register_duplicate bc env db input hvalid hholds] at h
      cases h
    · have hfresh : ∀ u ∈ db.users, u.Email ≠ input.Email := fun u hu he => hholds ⟨u, hu, he⟩
      cases hfault : db.fault with
      | some err =>
        have hfind := repositories.FindByEmail_fault db input.Email err hfault
        simp [usecases.RegisterUserUseCase.Execute, hvalid, hfind] at h
      | none =>
        refine ⟨rfl, rfl, hfresh, ?_⟩
        have hfind := repositories.FindByEmail_absent db input.Email hfault hfresh
        cases hhash : auth.HashPassword bc env.rand input.Password with
        | error e =>
          simp [usecases.RegisterUserUseCase.Execute, hvalid, hfind, hhash] at h
        | ok hash => exact ⟨hash, rfl⟩

theorem auth.HashPassword_ok (bc : bcrypt.Package) (rand : List UInt8) (password : String)
    (h : Go.len password ≤ 72) :
    ∃ hash, bc.GenerateFromPassword (Go.bytes password) 10 rand = .ok hash ∧
      auth.HashPassword bc rand password = .ok hash := by
  obtain ⟨hash, hgen⟩ := bc.generates (Go.bytes password) 10 rand h (by decide)
  exact ⟨hash, hgen, by simp [auth.HashPassword, hgen]⟩

theorem auth.HashPassword_too_long (bc : bcrypt.Package) (rand : List UInt8) (password : String)
    (h : 72 < Go.len password) :
    auth.HashPassword bc rand password = .error bcrypt.ErrPasswordTooLong := by
  simp [auth.HashPassword, bc.too_long (Go.bytes password) 10 rand h]

theorem auth.CheckPassword_of_HashPassword (bc : bcrypt.Package) (rand : List UInt8)
    (password hash : String) (h : auth.HashPassword bc rand password = .ok hash) :
    auth.CheckPassword bc password hash = true := by
  unfold auth.HashPassword at h
  cases hgen : bc.GenerateFromPassword (Go.bytes password) 10 rand with
  | error e => simp [hgen] at h
  | ok bytes =>
    simp only [hgen, Except.ok.injEq] at h
    subst h
    simp [auth.CheckPassword, bc.verifies (Go.bytes password) 10 rand bytes hgen]

/-! ## The claims -/

/-- C1, as stated, fails: a registration with a valid email and name and a
password of 73 letters passes validation and finds no user with the email, yet
it does not succeed, with any hasher and any outside values: bcrypt refuses the
password and `Execute` returns the hashing error. -/
theorem C1_long_password_not_registered :
    Spec.Valid ⟨"a@x.com", "A", Sample.password73⟩ ∧
      (∀ u ∈ Sample.emptyDB.users, u.Email ≠ "a@x.com") ∧
      ∀ (bc : bcrypt.Package) (env : usecases.Env),
        (usecases.RegisterUserUseCase.Execute bc env Sample.emptyDB
          ⟨"a@x.com", "A", Sample.password73⟩).result = .error "failed to hash password" := by
  refine ⟨by decide, by decide, ?_⟩
  intro bc env
  have hvalid : usecases.RegisterUserUseCase.validateInput
      ⟨"a@x.com", "A", Sample.password73⟩ = none := by decide
  have hfind := repositories.FindByEmail_absent Sample.emptyDB "a@x.com" rfl (by decide)
  have hhash := auth.HashPassword_too_long bc env.rand Sample.password73 (by decide)
  simp [usecases.RegisterUserUseCase.Execute, hvalid, hfind, hhash]

/-- C1, amended: for every valid input whose password has at most 72 bytes and
every store that answers and holds no user with the email, `Execute` succeeds;
a second `Execute` with the same email, any valid name and password and any
outside values, on the resulting store, fails with the duplicate-email error,
and the store then holds exactly one user with that email. -/
theorem C1_register_once (bc : bcrypt.Package) (env env2 : usecases.Env) (db : sql.DB)
    (input input2 : usecases.RegisterUserInput)
    (hvalid : Spec.Valid input) (hlen : Go.len input.Password ≤ 72)
    (hserving : db.fault = none) (hfresh : ∀ u ∈ db.users, u.Email ≠ input.Email)
    (hvalid2 : Spec.Valid input2) (hsame : input2.Email = input.Email) :
    (∃ out, (usecases.RegisterUserUseCase.Execute bc env db input).result = .ok out) ∧
      (usecases.RegisterUserUseCase.Execute bc env2
        (usecases.RegisterUserUseCase.Execute bc env db input).db input2).result =
          .error "user with this email already exists" ∧
      Spec.emailCount (usecases.RegisterUserUseCase.Execute bc env2
        (usecases.RegisterUserUseCase.Execute bc env db input).db input2).db input.Email = 1 := by
  obtain ⟨hash, _, hhash⟩ := auth.HashPassword_ok bc env.rand input.Password hlen
  have hv := (usecases.validateInput_eq_none_iff input).2 hvalid
  have hv2 := (usecases.validateInput_eq_none_iff input2).2 hvalid2
  rw [usecases.Register_fresh bc env db input hash hv hserving hfresh hhash]
  have hholds : Spec.Holds ⟨db.users ++
      [domain.NewUser env.now env.id env.key input.Email input.Name hash], none⟩
      input2.Email :=
    ⟨_, List.mem_append_right _ (List.mem_singleton.2 rfl), by simp [domain.NewUser, hsame]⟩
  rw [usecases.Register_duplicate bc env2 _ input2 hv2 hholds]
  refine ⟨⟨_, rfl⟩, rfl, ?_⟩
  have hzero : List.countP (fun u : domain.User => decide (u.Email = input.Email)) db.users = 0 := by
    rw [List.countP_eq_zero]
    intro u hu
    simpa using hfresh u hu
  simp [Spec.emailCount, List.countP_append, hzero, domain.NewUser]

/-- C1, amended, at the scenario of the specification. -/
theorem C1_register_once_witness :
    (∃ out, (usecases.RegisterUserUseCase.Execute bcrypt.plain Sample.env Sample.emptyDB
        Sample.alice).result = .ok out) ∧
      (usecases.RegisterUserUseCase.Execute bcrypt.plain Sample.env
        (usecases.RegisterUserUseCase.Execute bcrypt.plain Sample.env Sample.emptyDB
          Sample.alice).db ⟨"a@x.com", "B", "another"⟩).result =
          .error "user with this email already exists" ∧
      Spec.emailCount (usecases.RegisterUserUseCase.Execute bcrypt.plain Sample.env
        (usecases.RegisterUserUseCase.Execute bcrypt.plain Sample.env Sample.emptyDB
          Sample.alice).db ⟨"a@x.com", "B", "another"⟩).db "a@x.com" = 1 :=
  C1_register_once bcrypt.plain Sample.env Sample.env Sample.emptyDB Sample.alice
    ⟨"a@x.com", "B", "another"⟩ (by decide) (by decide) rfl (by decide) (by decide) rfl

/-- C2: the code accepts a password of fewer than six characters. The password
`ééé` has three characters; `len` counts its six bytes, so validation passes. -/
theorem C2_three_characters_pass :
    Spec.characters Sample.threeLetters = 3 ∧
      usecases.RegisterUserUseCase.validateInput ⟨"a@x.com", "A", Sample.threeLetters⟩ = none := by
  decide

/-! ## Lemmas on the authentication use case -/

theorem usecases.Authenticate_found (bc : bcrypt.Package) (db : sql.DB)
    (input : usecases.AuthenticateUserInput) (u : domain.User)
    (hserving : db.fault = none)
    (hfind : db.users.find? (fun v => v.Email = input.Email) = some u) :
    usecases.AuthenticateUserUseCase.Execute bc db input =
      if !u.IsActive then
        ⟨.error "account is deactivated", db, [.FindByEmail input.Email]⟩
      else if !auth.CheckPassword bc input.Password u.PasswordHash then
        ⟨.error "invalid email or password", db,
          [.FindByEmail input.Email, .CheckPassword input.Password u.PasswordHash]⟩
      else
        ⟨.ok ⟨u.ID.String, u.Email, u.Name, u.APIKey, u.IsActive⟩, db,
          [.FindByEmail input.Email, .CheckPassword input.Password u.PasswordHash]⟩ := by
  have h := repositories.FindByEmail_found db input.Email u hserving hfind
  simp only [usecases.AuthenticateUserUseCase.Execute, h]

theorem usecases.Authenticate_absent (bc : bcrypt.Package) (db : sql.DB)
    (input : usecases.AuthenticateUserInput)
    (habsent : ∀ u ∈ db.users, u.Email ≠ input.Email) :
    usecases.AuthenticateUserUseCase.Execute bc db input =
      ⟨.error "invalid email or password", db, [.FindByEmail input.Email]⟩ := by
  cases hfault : db.fault with
  | some err =>
    simp only [usecases.AuthenticateUserUseCase.Execute,
      repositories.FindByEmail_fault db input.Email err hfault]
  | none =>
    simp only [usecases.AuthenticateUserUseCase.Execute,
      repositories.FindByEmail_absent db input.Email hfault habsent]

theorem usecases.find_registered (users : List domain.User) (u : domain.User)
    (hfresh : ∀ v ∈ users, v.Email ≠ u.Email) :
    (users ++ [u]).find? (fun v => v.Email = u.Email) = some u := by
  have hnone : users.find? (fun v => v.Email = u.Email) = none := by
    rw [List.find?_eq_none]
    intro v hv
    simpa using hfresh v hv
  simp [List.find?_append, hnone]

/-- C3, as stated, fails: after a registration with a password of 72 letters,
the password of 73 letters that extends it is a different password, and
authentication with it succeeds, with any hasher: bcrypt reads 72 bytes. -/
theorem C3_longer_password_authenticates :
    Sample.password73 ≠ Sample.password72 ∧
      ∀ (bc : bcrypt.Package) (env : usecases.Env),
        ∃ out, (usecases.RegisterUserUseCase.Execute bc env Sample.emptyDB
            ⟨"a@x.com", "A", Sample.password72⟩).result = .ok out ∧
          (usecases.AuthenticateUserUseCase.Execute bc
            (usecases.RegisterUserUseCase.Execute bc env Sample.emptyDB
              ⟨"a@x.com", "A", Sample.password72⟩).db
            ⟨"a@x.com", Sample.password73⟩).result =
              .ok ⟨out.UserID, out.Email, out.Name, out.APIKey, true⟩ := by
  refine ⟨by decide, ?_⟩
  intro bc env
  obtain ⟨hash, hgen, hhash⟩ := auth.HashPassword_ok bc env.rand Sample.password72 (by decide)
  have hvalid : usecases.RegisterUserUseCase.validateInput
      ⟨"a@x.com", "A", Sample.password72⟩ = none := by decide
  rw [usecases.Register_fresh bc env Sample.emptyDB ⟨"a@x.com", "A", Sample.password72⟩ hash
    hvalid rfl (by decide) hhash]
  refine ⟨_, rfl, ?_⟩
  have hcheck : auth.CheckPassword bc Sample.password73 hash = true := by
    have h72 := auth.CheckPassword_of_HashPassword bc env.rand Sample.password72 hash hhash
    have hread := bc.reads72 hash (Go.bytes Sample.password73) (Go.bytes Sample.password72)
      (by decide)
    simpa [auth.CheckPassword, hread] using h72
  have hfind := usecases.find_registered Sample.emptyDB.users
    (domain.NewUser env.now env.id env.key "a@x.com" "A" hash) (fun v hv => nomatch hv)
  rw [usecases.Authenticate_found bc
    ⟨Sample.emptyDB.users ++ [domain.NewUser env.now env.id env.key "a@x.com" "A" hash], none⟩
    ⟨"a@x.com", Sample.password73⟩
    (domain.NewUser env.now env.id env.key "a@x.com" "A" hash) rfl hfind]
  simp [hcheck, domain.NewUser]

/-- C3, amended: after a successful registration, authentication with the same
email and password succeeds and returns the userId, email, name and apiKey that
registration returned, with isActive true; and authentication with the same
email and any password that the comparison with the stored digest rejects fails
with the invalid-credentials error. -/
theorem C3_round_trip (bc : bcrypt.Package) (env : usecases.Env) (db : sql.DB)
    (input : usecases.RegisterUserInput) (out : usecases.RegisterUserOutput)
    (hreg : (usecases.RegisterUserUseCase.Execute bc env db input).result = .ok out) :
    ∃ hash, auth.HashPassword bc env.rand input.Password = .ok hash ∧
      (usecases.AuthenticateUserUseCase.Execute bc
        (usecases.RegisterUserUseCase.Execute bc env db input).db
        ⟨input.Email, input.Password⟩).result =
          .ok ⟨out.UserID, out.Email, out.Name, out.APIKey, true⟩ ∧
      ∀ password, auth.CheckPassword bc password hash = false →
        (usecases.AuthenticateUserUseCase.Execute bc
          (usecases.RegisterUserUseCase.Execute bc env db input).db
          ⟨input.Email, password⟩).result = .error "invalid email or password" := by
  obtain ⟨hvalid, hserving, hfresh, hash, hhash⟩ :=
    usecases.Register_ok_inv bc env db input out hreg
  have hexec := usecases.Register_fresh bc env db input hash hvalid hserving hfresh hhash
  rw [hexec] at hreg ⊢
  simp only [Except.ok.injEq] at hreg
  subst hreg
  have hfind := usecases.find_registered db.users
    (domain.NewUser env.now env.id env.key input.Email input.Name hash) hfresh
  have hcheck := auth.CheckPassword_of_HashPassword bc env.rand input.Password hash hhash
  refine ⟨hash, hhash, ?_, ?_⟩
  · rw [usecases.Authenticate_found bc
      ⟨db.users ++ [domain.NewUser env.now env.id env.key input.Email input.Name hash], none⟩
      ⟨input.Email, input.Password⟩
      (domain.NewUser env.now env.id env.key input.Email input.Name hash) rfl hfind]
    simp [hcheck, domain.NewUser]
  · intro password hwrong
    rw [usecases.Authenticate_found bc
      ⟨db.users ++ [domain.NewUser env.now env.id env.key input.Email input.Name hash], none⟩
      ⟨input.Email, password⟩
      (domain.NewUser env.now env.id env.key input.Email input.Name hash) rfl hfind]
    simp [hwrong, domain.NewUser]

/-- C3, amended, at the scenario of the specification: `secret1` registers and
authenticates, `wrong` is refused. -/
theorem C3_round_trip_witness :
    ∃ hash, auth.HashPassword bcrypt.plain Sample.env.rand Sample.alice.Password = .ok hash ∧
      (usecases.AuthenticateUserUseCase.Execute bcrypt.plain
        (usecases.RegisterUserUseCase.Execute bcrypt.plain Sample.env Sample.emptyDB
          Sample.alice).db
        ⟨Sample.alice.Email, Sample.alice.Password⟩).result =
          .ok ⟨"11111111-1111-4111-8111-111111111111", "a@x.com", "A",
            "crawlly_22222222-2222-4222-8222-222222222222", true⟩ ∧
      ∀ password, auth.CheckPassword bcrypt.plain password hash = false →
        (usecases.AuthenticateUserUseCase.Execute bcrypt.plain
          (usecases.RegisterUserUseCase.Execute bcrypt.plain Sample.env Sample.emptyDB
            Sample.alice).db
          ⟨Sample.alice.Email, password⟩).result = .error "invalid email or password" :=
  C3_round_trip bcrypt.plain Sample.env Sample.emptyDB Sample.alice
    ⟨"11111111-1111-4111-8111-111111111111", "a@x.com", "A",
      "crawlly_22222222-2222-4222-8222-222222222222"⟩ (by decide)

/-- C4, as stated, fails on two counts. The deactivated user is stored and the
connection of the store is down: for every hasher and every password,
authentication with the user's email fails with the invalid-credentials error,
the one the claim excludes. And on a store that answers and holds a deactivated
user after an active one with the same email, authentication with that email
never fails with the account-deactivated error. -/
theorem C4_deactivated_not_always_told :
    (Sample.dormant ∈ Sample.dormantDownDB.users ∧ Sample.dormant.IsActive = false ∧
      ∀ (bc : bcrypt.Package) (password : String),
        (usecases.AuthenticateUserUseCase.Execute bc Sample.dormantDownDB
          ⟨Sample.dormant.Email, password⟩).result = .error "invalid email or password") ∧
    (Sample.twin ∈ Sample.twinsDB.users ∧ Sample.twin.IsActive = false ∧
      ∀ (bc : bcrypt.Package) (password : String),
        (usecases.AuthenticateUserUseCase.Execute bc Sample.twinsDB
          ⟨Sample.twin.Email, password⟩).result ≠ .error "account is deactivated") := by
  refine ⟨⟨by decide, rfl, ?_⟩, ⟨by decide, rfl, ?_⟩⟩
  · intro bc password
    have hfind := repositories.FindByEmail_fault Sample.dormantDownDB Sample.dormant.Email
      "dial tcp 127.0.0.1:5432: connect: connection refused" rfl
    simp only [usecases.AuthenticateUserUseCase.Execute, hfind]
  · intro bc password
    have hfind : Sample.twinsDB.users.find? (fun v => v.Email = Sample.twin.Email) =
        some (domain.NewUser 500 Sample.id1 Sample.id2 "a@x.com" "A"
          (bcrypt.plainDigest (Go.bytes "secret1"))) := by decide
    rw [usecases.Authenticate_found bc Sample.twinsDB ⟨Sample.twin.Email, password⟩ _ rfl hfind]
    by_cases hcheck : auth.CheckPassword bc password
        (bcrypt.plainDigest (Go.bytes "secret1")) = true
    · simp [domain.NewUser, hcheck]
    · simp [domain.NewUser, hcheck]

/-- C4, amended: on a store that answers the lookup, for every stored user whose
isActive is false, no active user being stored under the same email (with one
user per email, the invariant of the data model, that is every deactivated
user), and for every password, authentication with that email fails with the
account-deactivated error; so it does not fail with the invalid-credentials
error and does not succeed. -/
theorem C4_deactivated_refused (bc : bcrypt.Package) (db : sql.DB) (u : domain.User)
    (password : String)
    (hserving : db.fault = none) (hu : u ∈ db.users)
    (hinactive : ∀ v ∈ db.users, v.Email = u.Email → v.IsActive = false) :
    (usecases.AuthenticateUserUseCase.Execute bc db ⟨u.Email, password⟩).result =
        .error "account is deactivated" ∧
      (usecases.AuthenticateUserUseCase.Execute bc db ⟨u.Email, password⟩).result ≠
        .error "invalid email or password" ∧
      ∀ out, (usecases.AuthenticateUserUseCase.Execute bc db ⟨u.Email, password⟩).result ≠
        .ok out := by
  cases hfind : db.users.find? (fun v => v.Email = u.Email) with
  | none =>
    rw [List.find?_eq_none] at hfind
    exact absurd (by simp) (hfind u hu)
  | some v =>
    have hv := List.mem_of_find?_eq_some hfind
    have he : v.Email = u.Email := by simpa using List.find?_some hfind
    rw [usecases.Authenticate_found bc db ⟨u.Email, password⟩ v hserving hfind]
    simp [hinactive v hv he]

/-- C4, amended, at a stored deactivated user and the password it was registered
with. -/
theorem C4_deactivated_refused_witness :
    (usecases.AuthenticateUserUseCase.Execute bcrypt.plain Sample.dormantDB
        ⟨Sample.dormant.Email, "secret1"⟩).result = .error "account is deactivated" ∧
      (usecases.AuthenticateUserUseCase.Execute bcrypt.plain Sample.dormantDB
        ⟨Sample.dormant.Email, "secret1"⟩).result ≠ .error "invalid email or password" ∧
      ∀ out, (usecases.AuthenticateUserUseCase.Execute bcrypt.plain Sample.dormantDB
        ⟨Sample.dormant.Email, "secret1"⟩).result ≠ .ok out :=
  C4_deactivated_refused bcrypt.plain Sample.dormantDB Sample.dormant "secret1" rfl
    (by decide) (by decide)

/-- C5, as stated, fails: the store holds a user with the email `a@x.com`, who
is deactivated, and none with `b@x.com`; for every hasher and every password,
a wrong one included, authentication with the known email fails with the
account-deactivated error while the unknown email gets the invalid-credentials
error, so the caller can tell the two apart. -/
theorem C5_deactivated_is_told_apart :
    Spec.Holds Sample.dormantDB "a@x.com" ∧ ¬ Spec.Holds Sample.dormantDB "b@x.com" ∧
      ∀ (bc : bcrypt.Package) (password : String),
        (usecases.AuthenticateUserUseCase.Execute bc Sample.dormantDB
          ⟨"a@x.com", password⟩).result = .error "account is deactivated" ∧
        (usecases.AuthenticateUserUseCase.Execute bc Sample.dormantDB
          ⟨"b@x.com", password⟩).result = .error "invalid email or password" := by
  refine ⟨by decide, by decide, ?_⟩
  intro bc password
  have hfind : Sample.dormantDB.users.find? (fun v => v.Email = "a@x.com") =
      some Sample.dormant := by decide
  have habsent : ∀ u ∈ Sample.dormantDB.users, u.Email ≠ "b@x.com" := by decide
  constructor
  · rw [usecases.Authenticate_found bc Sample.dormantDB ⟨"a@x.com", password⟩ Sample.dormant
      rfl hfind]
    rfl
  · rw [usecases.Authenticate_absent bc Sample.dormantDB ⟨"b@x.com", password⟩ habsent]

/-- C5, amended: for every store, authentication with an email that no user
has, and authentication with the email of an existing active user together with
a wrong password (one that the comparison with the stored digest rejects), both
fail with the same invalid-credentials error. -/
theorem C5_same_error (bc : bcrypt.Package) (db : sql.DB)
    (unknown known : usecases.AuthenticateUserInput)
    (hunknown : ¬ Spec.Holds db unknown.Email) (hknown : Spec.Holds db known.Email)
    (hactive : ∀ u ∈ db.users, u.Email = known.Email → u.IsActive = true)
    (hwrong : ∀ u ∈ db.users, u.Email = known.Email →
      auth.CheckPassword bc known.Password u.PasswordHash = false) :
    (usecases.AuthenticateUserUseCase.Execute bc db unknown).result =
        .error "invalid email or password" ∧
      (usecases.AuthenticateUserUseCase.Execute bc db known).result =
        .error "invalid email or password" := by
  constructor
  · rw [usecases.Authenticate_absent bc db unknown (fun u hu he => hunknown ⟨u, hu, he⟩)]
  · cases hfault : db.fault with
    | some err =>
      simp only [usecases.AuthenticateUserUseCase.Execute,
        repositories.FindByEmail_fault db known.Email err hfault]
    | none =>
      cases hfind : db.users.find? (fun v => v.Email = known.Email) with
      | none =>
        exfalso
        obtain ⟨u, hu, hemail⟩ := hknown
        rw [List.find?_eq_none] at hfind
        exact hfind u hu (by simpa using hemail)
      | some u =>
        have hu := List.mem_of_find?_eq_some hfind
        have he : u.Email = known.Email := by simpa using List.find?_some hfind
        rw [usecases.Authenticate_found bc db known u hfault hfind]
        simp [hactive u hu he, hwrong u hu he]

/-- C5, amended, at a store with one active user: an unknown email and the
known email with the password `wrong`. -/
theorem C5_same_error_witness :
    (usecases.AuthenticateUserUseCase.Execute bcrypt.plain Sample.aliceDB
        ⟨"b@x.com", "secret1"⟩).result = .error "invalid email or password" ∧
      (usecases.AuthenticateUserUseCase.Execute bcrypt.plain Sample.aliceDB
        ⟨"a@x.com", "wrong"⟩).result = .error "invalid email or password" :=
  C5_same_error bcrypt.plain Sample.aliceDB ⟨"b@x.com", "secret1"⟩ ⟨"a@x.com", "wrong"⟩
    (by decide) (by decide) (by decide) (by decide)

/-- C6, as stated, fails: the email `a@x.com` belongs to a stored user, and the
registration of that email with the password `abc` fails with a validation
error, not with the duplicate-email error. -/
theorem C6_stored_email_invalid_input :
    Spec.Holds Sample.aliceDB "a@x.com" ∧
      ∀ (bc : bcrypt.Package) (env : usecases.Env),
        (usecases.RegisterUserUseCase.Execute bc env Sample.aliceDB
          ⟨"a@x.com", "A", "abc"⟩).result =
            .error "password must be at least 6 characters" := by
  refine ⟨by decide, ?_⟩
  intro bc env
  rw [usecases.Register_invalid bc env Sample.aliceDB ⟨"a@x.com", "A", "abc"⟩
    "password must be at least 6 characters" (by decide)]

/-- C6, amended: for every input that validation rejects, `Execute` fails with
the validation error and makes no call on the store or the hasher; for every
valid input whose email already belongs to a stored user, `Execute` fails with
the duplicate-email error after the lookup alone, without hashing the password
and without calling `Create`. In both cases the store is unchanged, so a lookup
finds what it found before. -/
theorem C6_rejected_registration_is_atomic (bc : bcrypt.Package) (env : usecases.Env)
    (db : sql.DB) (input : usecases.RegisterUserInput) :
    (∀ err, usecases.RegisterUserUseCase.validateInput input = some err →
      (usecases.RegisterUserUseCase.Execute bc env db input).result = .error err ∧
      (usecases.RegisterUserUseCase.Execute bc env db input).calls = [] ∧
      (usecases.RegisterUserUseCase.Execute bc env db input).db = db) ∧
    (Spec.Valid input → Spec.Holds db input.Email →
      (usecases.RegisterUserUseCase.Execute bc env db input).result =
        .error "user with this email already exists" ∧
      (usecases.RegisterUserUseCase.Execute bc env db input).calls =
        [.FindByEmail input.Email] ∧
      (usecases.RegisterUserUseCase.Execute bc env db input).db = db) := by
  constructor
  · intro err herr
    rw [usecases.Register_invalid bc env db input err herr]
    exact ⟨rfl, rfl, rfl⟩
  · intro hvalid hholds
    rw [usecases.Register_duplicate bc env db input
      ((usecases.validateInput_eq_none_iff input).2 hvalid) hholds]
    exact ⟨rfl, rfl, rfl⟩

/-- C6, amended, at the scenario of the specification, registering with the
password `abc` on an empty store, and at a second registration of a stored
email. -/
theorem C6_rejected_registration_is_atomic_witness :
    ((usecases.RegisterUserUseCase.Execute bcrypt.plain Sample.env Sample.emptyDB
        ⟨"a@x.com", "A", "abc"⟩).result = .error "password must be at least 6 characters" ∧
      (usecases.RegisterUserUseCase.Execute bcrypt.plain Sample.env Sample.emptyDB
        ⟨"a@x.com", "A", "abc"⟩).calls = [] ∧
      (usecases.RegisterUserUseCase.Execute bcrypt.plain Sample.env Sample.emptyDB
        ⟨"a@x.com", "A", "abc"⟩).db = Sample.emptyDB) ∧
    ((usecases.RegisterUserUseCase.Execute bcrypt.plain Sample.env Sample.aliceDB
        ⟨"a@x.com", "B", "another"⟩).result = .error "user with this email already exists" ∧
      (usecases.RegisterUserUseCase.Execute bcrypt.plain Sample.env Sample.aliceDB
        ⟨"a@x.com", "B", "another"⟩).calls = [.FindByEmail "a@x.com"] ∧
      (usecases.RegisterUserUseCase.Execute bcrypt.plain Sample.env Sample.aliceDB
        ⟨"a@x.com", "B", "another"⟩).db = Sample.aliceDB) :=
  ⟨(C6_rejected_registration_is_atomic bcrypt.plain Sample.env Sample.emptyDB
      ⟨"a@x.com", "A", "abc"⟩).1 "password must be at least 6 characters" (by decide),
    (C6_rejected_registration_is_atomic bcrypt.plain Sample.env Sample.aliceDB
      ⟨"a@x.com", "B", "another"⟩).2 (by decide) (by decide)⟩

/-- C7: whenever `Execute` succeeds, the password was hashed, and the user
handed to `Create` (the last of the three calls made, and the row added to the
store) has the email and name of the input, the hasher's output for the input
password as passwordHash, isActive true and createdAt and updatedAt both equal
to the time of creation; the result is that user's id as text, email, name and
apiKey, and nothing else. -/
theorem C7_registration_postcondition (bc : bcrypt.Package) (env : usecases.Env) (db : sql.DB)
    (input : usecases.RegisterUserInput) (out : usecases.RegisterUserOutput)
    (hreg : (usecases.RegisterUserUseCase.Execute bc env db input).result = .ok out) :
    ∃ user hash,
      auth.HashPassword bc env.rand input.Password = .ok hash ∧
      (usecases.RegisterUserUseCase.Execute bc env db input).calls =
        [.FindByEmail input.Email, .HashPassword input.Password, .Create user] ∧
      (usecases.RegisterUserUseCase.Execute bc env db input).db.users = db.users ++ [user] ∧
      user.Email = input.Email ∧ user.Name = input.Name ∧ user.PasswordHash = hash ∧
      user.IsActive = true ∧ user.CreatedAt = env.now ∧ user.UpdatedAt = env.now ∧
      user.ID = env.id ∧ user.APIKey = domain.generateAPIKey env.key ∧
      out = ⟨user.ID.String, user.Email, user.Name, user.APIKey⟩ := by
  obtain ⟨hvalid, hserving, hfresh, hash, hhash⟩ :=
    usecases.Register_ok_inv bc env db input out hreg
  have hexec := usecases.Register_fresh bc env db input hash hvalid hserving hfresh hhash
  rw [hexec] at hreg ⊢
  simp only [Except.ok.injEq] at hreg
  exact ⟨domain.NewUser env.now env.id env.key input.Email input.Name hash, hash, hhash,
    rfl, rfl, rfl, rfl, rfl, rfl, rfl, rfl, rfl, rfl, hreg.symm⟩

/-- C7 at the scenario of the specification. -/
theorem C7_registration_postcondition_witness :
    ∃ user hash,
      auth.HashPassword bcrypt.plain Sample.env.rand Sample.alice.Password = .ok hash ∧
      (usecases.RegisterUserUseCase.Execute bcrypt.plain Sample.env Sample.emptyDB
        Sample.alice).calls =
        [.FindByEmail Sample.alice.Email, .HashPassword Sample.alice.Password, .Create user] ∧
      (usecases.RegisterUserUseCase.Execute bcrypt.plain Sample.env Sample.emptyDB
        Sample.alice).db.users = Sample.emptyDB.users ++ [user] ∧
      user.Email = Sample.alice.Email ∧ user.Name = Sample.alice.Name ∧
      user.PasswordHash = hash ∧
      user.IsActive = true ∧ user.CreatedAt = Sample.env.now ∧
      user.UpdatedAt = Sample.env.now ∧
      user.ID = Sample.env.id ∧ user.APIKey = domain.generateAPIKey Sample.env.key ∧
      (⟨"11111111-1111-4111-8111-111111111111", "a@x.com", "A",
        "crawlly_22222222-2222-4222-8222-222222222222"⟩ : usecases.RegisterUserOutput) =
        ⟨user.ID.String, user.Email, user.Name, user.APIKey⟩ :=
  C7_registration_postcondition bcrypt.plain Sample.env Sample.emptyDB Sample.alice
    ⟨"11111111-1111-4111-8111-111111111111", "a@x.com", "A",
      "crawlly_22222222-2222-4222-8222-222222222222"⟩ (by decide)

/-! ## Lemmas on the user entity -/

theorem domain.generateAPIKey_ne_empty (k : uuid.UUID) : domain.generateAPIKey k ≠ "" := by
  intro h
  have := congrArg (fun s => s.data.head?) h
  simp [domain.generateAPIKey] at this

/-- A text that does not begin with the letter `c` is not an API key. -/
theorem domain.generateAPIKey_ne_of_head (s : String) (hs : s.data.head? ≠ some 'c')
    (k : uuid.UUID) : s ≠ domain.generateAPIKey k := by
  intro h
  apply hs
  rw [h]
  simp [domain.generateAPIKey]

/-- Every mutator keeps the password hash and leaves an API key that
`generateAPIKey` made. -/
theorem domain.Mutation.apply_keeps (u : domain.User) (m : domain.Mutation)
    (h : ∃ k, u.APIKey = domain.generateAPIKey k) :
    (m.apply u).PasswordHash = u.PasswordHash ∧
      ∃ k, (m.apply u).APIKey = domain.generateAPIKey k := by
  cases m with
  | UpdateEmail now email => exact ⟨rfl, h⟩
  | UpdateName now name => exact ⟨rfl, h⟩
  | Deactivate now => exact ⟨rfl, h⟩
  | Activate now => exact ⟨rfl, h⟩
  | RegenerateAPIKey now key => exact ⟨rfl, key, rfl⟩

theorem domain.User.after_keeps (ms : List domain.Mutation) (u : domain.User)
    (h : ∃ k, u.APIKey = domain.generateAPIKey k) :
    (u.after ms).PasswordHash = u.PasswordHash ∧
      ∃ k, (u.after ms).APIKey = domain.generateAPIKey k := by
  induction ms generalizing u with
  | nil => exact ⟨rfl, h⟩
  | cons m ms ih =>
    obtain ⟨hp, hk⟩ := domain.Mutation.apply_keeps u m h
    obtain ⟨hp2, hk2⟩ := ih (m.apply u) hk
    exact ⟨by rw [← hp]; exact hp2, hk2⟩

/-- C8, as stated, fails: `NewUser` does not look at the passwordHash it is
given; with the text of an API key as passwordHash and the random generator
returning the matching identifier, the new user has apiKey equal to
passwordHash. -/
theorem C8_api_key_equals_hash :
    (domain.NewUser 1000 Sample.id1 Sample.id2 "a@x.com" "A"
        "crawlly_22222222-2222-4222-8222-222222222222").APIKey =
      (domain.NewUser 1000 Sample.id1 Sample.id2 "a@x.com" "A"
        "crawlly_22222222-2222-4222-8222-222222222222").PasswordHash := by
  decide

/-- C8, amended: for every user built by `NewUser` with any email and name and
a passwordHash that is not itself the text of an API key (`crawlly_` and an
identifier), and after any sequence of `UpdateEmail`, `UpdateName`,
`Deactivate`, `Activate` and `RegenerateAPIKey`, apiKey is not empty and does
not equal passwordHash. -/
theorem C8_api_key_invariant (now : time.Time) (id key : uuid.UUID)
    (email name passwordHash : String) (ms : List domain.Mutation)
    (hform : ∀ k : uuid.UUID, passwordHash ≠ domain.generateAPIKey k) :
    ((domain.NewUser now id key email name passwordHash).after ms).APIKey ≠ "" ∧
      ((domain.NewUser now id key email name passwordHash).after ms).APIKey ≠
        ((domain.NewUser now id key email name passwordHash).after ms).PasswordHash := by
  obtain ⟨hp, k, hk⟩ := domain.User.after_keeps ms
    (domain.NewUser now id key email name passwordHash) ⟨key, rfl⟩
  rw [hp, hk]
  exact ⟨domain.generateAPIKey_ne_empty k, fun h => hform k h.symm⟩

/-- C8, amended, at a user whose passwordHash is a bcrypt digest, after a
change of name, a deactivation and a new API key. -/
theorem C8_api_key_invariant_witness :
    ((domain.NewUser 1000 Sample.id1 Sample.id2 "a@x.com" "A" "$2a$10$abcdefghijklmnopqrstuv").after
        [.UpdateName 1001 "B", .Deactivate 1002, .RegenerateAPIKey 1003 Sample.id1]).APIKey ≠ "" ∧
      ((domain.NewUser 1000 Sample.id1 Sample.id2 "a@x.com" "A" "$2a$10$abcdefghijklmnopqrstuv").after
        [.UpdateName 1001 "B", .Deactivate 1002, .RegenerateAPIKey 1003 Sample.id1]).APIKey ≠
      ((domain.NewUser 1000 Sample.id1 Sample.id2 "a@x.com" "A" "$2a$10$abcdefghijklmnopqrstuv").after
        [.UpdateName 1001 "B", .Deactivate 1002, .RegenerateAPIKey 1003 Sample.id1]).PasswordHash :=
  C8_api_key_invariant 1000 Sample.id1 Sample.id2 "a@x.com" "A" "$2a$10$abcdefghijklmnopqrstuv"
    [.UpdateName 1001 "B", .Deactivate 1002, .RegenerateAPIKey 1003 Sample.id1]
    (domain.generateAPIKey_ne_of_head "$2a$10$abcdefghijklmnopqrstuv" (by decide))

/-- C9, as stated, fails twice, with any bcrypt: `HashPassword` does not succeed
on a password of 73 bytes; and the password of 73 letters, different from the
one of 72 letters it extends, passes `CheckPassword` against every digest of
the latter. -/
theorem C9_hash_limits :
    (∀ (bc : bcrypt.Package) (rand : List UInt8),
        auth.HashPassword bc rand Sample.password73 = .error bcrypt.ErrPasswordTooLong) ∧
      Sample.password73 ≠ Sample.password72 ∧
      ∀ (bc : bcrypt.Package) (rand : List UInt8),
        ∃ hash, auth.HashPassword bc rand Sample.password72 = .ok hash ∧
          auth.CheckPassword bc Sample.password73 hash = true := by
  refine ⟨fun bc rand => auth.HashPassword_too_long bc rand Sample.password73 (by decide),
    by decide, ?_⟩
  intro bc rand
  obtain ⟨hash, _, hhash⟩ := auth.HashPassword_ok bc rand Sample.password72 (by decide)
  have h72 := auth.CheckPassword_of_HashPassword bc rand Sample.password72 hash hhash
  have hread := bc.reads72 hash (Go.bytes Sample.password73) (Go.bytes Sample.password72)
    (by decide)
  exact ⟨hash, hhash, by simpa [auth.CheckPassword, hread] using h72⟩

/-- C9, amended: for every password p of at most 72 bytes, `HashPassword(p)`
succeeds and `CheckPassword(p, HashPassword(p))` is true. -/
theorem C9_hash_then_check (bc : bcrypt.Package) (rand : List UInt8) (p : String)
    (hlen : Go.len p ≤ 72) :
    ∃ hash, auth.HashPassword bc rand p = .ok hash ∧ auth.CheckPassword bc p hash = true := by
  obtain ⟨hash, _, hhash⟩ := auth.HashPassword_ok bc rand p hlen
  exact ⟨hash, hhash, auth.CheckPassword_of_HashPassword bc rand p hash hhash⟩

/-- C9, amended, at the password `secret1`. -/
theorem C9_hash_then_check_witness :
    ∃ hash, auth.HashPassword bcrypt.plain [] "secret1" = .ok hash ∧
      auth.CheckPassword bcrypt.plain "secret1" hash = true :=
  C9_hash_then_check bcrypt.plain [] "secret1" (by decide)

/-- C10: for every store state and every input, `Execute` of the authentication
use case, whether it succeeds or fails, leaves the database as it was, every
stored user with it, and calls nothing but `FindByEmail` and `CheckPassword`:
no `Create`, `Update` or `Delete`. -/
theorem C10_authentication_reads_only (bc : bcrypt.Package) (db : sql.DB)
    (input : usecases.AuthenticateUserInput) :
    (usecases.AuthenticateUserUseCase.Execute bc db input).db = db ∧
      (usecases.AuthenticateUserUseCase.Execute bc db input).db.users = db.users ∧
      (∀ c ∈ (usecases.AuthenticateUserUseCase.Execute bc db input).calls,
        c.writes = false) ∧
      ∀ c ∈ (usecases.AuthenticateUserUseCase.Execute bc db input).calls,
        c = .FindByEmail input.Email ∨ ∃ hash, c = .CheckPassword input.Password hash := by
  have hdb : (usecases.AuthenticateUserUseCase.Execute bc db input).db = db ∧
      ∀ c ∈ (usecases.AuthenticateUserUseCase.Execute bc db input).calls,
        c = .FindByEmail input.Email ∨ ∃ hash, c = .CheckPassword input.Password hash := by
    have hr := repositories.FindByEmail_db db input.Email
    unfold usecases.AuthenticateUserUseCase.Execute
    split
    · next _ _ db1 heq =>
      rw [heq] at hr
      exact ⟨hr, by simp⟩
    · next db1 heq =>
      rw [heq] at hr
      exact ⟨hr, by simp⟩
    · next user db1 heq =>
      rw [heq] at hr
      split
      · exact ⟨hr, by simp⟩
      · split
        · exact ⟨hr, by simp⟩
        · exact ⟨hr, by simp⟩
  refine ⟨hdb.1, by rw [hdb.1], ?_, hdb.2⟩
  intro c hc
  rcases hdb.2 c hc with rfl | ⟨hash, rfl⟩ <;> rfl

/-! ## Lemmas on the lookup of the registration use case -/

/-- When the lookup reports no matching row, a valid registration does not
report a duplicate email: it calls `HashPassword` and, with the digest it gets,
`Create`; without a digest it stops at the hashing error. -/
theorem usecases.Register_not_found_proceeds (bc : bcrypt.Package) (env : usecases.Env)
    (db : sql.DB) (input : usecases.RegisterUserInput)
    (hvalid : usecases.RegisterUserUseCase.validateInput input = none)
    (hlookup : (repositories.PostgresUserRepository.FindByEmail db input.Email).1 =
      (none, some "user not found")) :
    (usecases.RegisterUserUseCase.Execute bc env db input).result ≠
        .error "user with this email already exists" ∧
      ((∃ e, auth.HashPassword bc env.rand input.Password = .error e ∧
          (usecases.RegisterUserUseCase.Execute bc env db input).calls =
            [.FindByEmail input.Email, .HashPassword input.Password]) ∨
        ∃ hash, auth.HashPassword bc env.rand input.Password = .ok hash ∧
          (usecases.RegisterUserUseCase.Execute bc env db input).calls =
            [.FindByEmail input.Email, .HashPassword input.Password,
              .Create (domain.NewUser env.now env.id env.key input.Email input.Name hash)]) := by
  have hfind : repositories.PostgresUserRepository.FindByEmail db input.Email =
      ((none, some "user not found"), db) := by
    exact Prod.ext hlookup (repositories.FindByEmail_db db input.Email)
  cases hhash : auth.HashPassword bc env.rand input.Password with
  | error e =>
    simp [usecases.RegisterUserUseCase.Execute, hvalid, hfind, hhash]
  | ok hash =>
    cases hcreate : repositories.PostgresUserRepository.Create db
        (domain.NewUser env.now env.id env.key input.Email input.Name hash) with
    | mk err db2 =>
      cases err with
      | some e => simp [usecases.RegisterUserUseCase.Execute, hvalid, hfind, hhash, hcreate]
      | none => simp [usecases.RegisterUserUseCase.Execute, hvalid, hfind, hhash, hcreate]

/-- When the driver fails the lookup, `FindByEmail` returns the error with a
user that is not nil, and a valid registration reports a duplicate email after
the lookup alone. -/
theorem usecases.Register_store_failure (bc : bcrypt.Package) (env : usecases.Env)
    (db : sql.DB) (input : usecases.RegisterUserInput) (err : String)
    (hvalid : usecases.RegisterUserUseCase.validateInput input = none)
    (hfault : db.fault = some err) :
    (repositories.PostgresUserRepository.FindByEmail db input.Email).1 =
        (some domain.User.zero, some err) ∧
      usecases.RegisterUserUseCase.Execute bc env db input =
        ⟨.error "user with this email already exists", db, [.FindByEmail input.Email]⟩ := by
  have hfind := repositories.FindByEmail_fault db input.Email err hfault
  refine ⟨by rw [hfind], ?_⟩
  simp [usecases.RegisterUserUseCase.Execute, hvalid, hfind]

/-- C11: the code reports a duplicate email on a store failure. The input of
the scenario is valid and the store holds no user with its email; the
connection is down, so `FindByEmail` returns an error that is not "no rows",
together with the empty user it allocated. `Execute`, with any hasher and any
outside values, then fails with the duplicate-email error after the lookup
alone: it calls neither `HashPassword` nor `Create`. -/
theorem C11_store_failure_reported_as_duplicate :
    Spec.Valid Sample.alice ∧ ¬ Spec.Holds Sample.downDB Sample.alice.Email ∧
      (repositories.PostgresUserRepository.FindByEmail Sample.downDB Sample.alice.Email).1 =
        (some domain.User.zero,
          some "dial tcp 127.0.0.1:5432: connect: connection refused") ∧
      ∀ (bc : bcrypt.Package) (env : usecases.Env),
        usecases.RegisterUserUseCase.Execute bc env Sample.downDB Sample.alice =
          ⟨.error "user with this email already exists", Sample.downDB,
            [.FindByEmail "a@x.com"]⟩ := by
  refine ⟨by decide, by decide, by decide, ?_⟩
  intro bc env
  exact (usecases.Register_store_failure bc env Sample.downDB Sample.alice
    "dial tcp 127.0.0.1:5432: connect: connection refused" (by decide) rfl).2
